import Mathlib

/-!
Verification of the awflow Slurm executor and node decorators against
their natural-language specification.  The data model and the
operations are shallowly embedded from
`src/awflow/backends/slurm/executor.py` and
`src/awflow/decorators/node.py`.  Components of the repository that
are not part of the provided sources (the `Node` class, the workflow
graph with `add_and_get_node`, pruning and the topological program)
are modelled from the specification and marked as such in their doc
comments.
-/

namespace Awflow

/-- Modelled from the spec: a `Node` (missing `awflow/node.py`) is a
single schedulable unit with a stable unique identity (`identifier`,
modelling Python `id`), a human-readable `name`, a replica count
`tasks` (the spec's `replica_count`), an insertion-ordered attribute
mapping, and a set of dependency references.  Following the spec's
design note, dependency references are stored as identifiers; the
executor only ever reads `dependency.identifier` from a dependency
reference. -/
structure Node where
  identifier : Nat
  name : String
  tasks : Nat
  attributes : List (String × String)
  dependencies : List Nat
deriving DecidableEq

/-- Python-dict assignment on an insertion-ordered association list:
an existing key keeps its position and receives the new value, a new
key is appended at the end (CPython dict semantics, used by
`node[key] = value`). -/
def attrSet (d : List (String × String)) (k v : String) : List (String × String) :=
  match d with
  | [] => [(k, v)]
  | (k0, v0) :: rest => if k0 = k then (k0, v) :: rest else (k0, v0) :: attrSet rest k v

/-- Python-dict lookup, used by `node[key]`. -/
def attrGet (d : List (String × String)) (k : String) : Option String :=
  match d with
  | [] => none
  | (k0, v0) :: rest => if k0 = k then some v0 else attrGet rest k

/-- Character-level prefix test on strings: Python's `key[:2] == '--'`
is `strHasPre "--" key` (slicing past the end just yields a shorter,
hence different, string). -/
def strHasPre (p s : String) : Bool := p.data.isPrefixOf s.data

/-- Embedding of the body of `add_default_attributes` for one node of
the workflow (`executor.py`, lines 52-63): five dict assignments,
the `--output=` value depending on whether the node is an array task. -/
def addDefaults (dir : String) (n : Node) : Node :=
  let a0 := attrSet n.attributes "--export=" "ALL"
  let a1 := attrSet a0 "--parsable" ""
  let a2 := attrSet a1 "--requeue" ""
  let a3 := attrSet a2 "--job-name=" ("\"" ++ n.name ++ "\"")
  let fmt := "\"" ++ dir ++ "/logs/" ++ n.name ++
    (if n.tasks > 1 then "-%A_%a.log" else "-%j.log")
  { n with attributes := attrSet a3 "--output=" (fmt ++ "\"") }

/-- Embedding of `add_default_attributes` (`executor.py`, lines 51-63):
the loop over `workflow.nodes`. -/
def add_default_attributes (dir : String) (nodes : List Node) : List Node :=
  nodes.map (addDefaults dir)

/-- Embedding of the attribute loop of `generate_task_files`
(`executor.py`, lines 70-76): emit an `#SBATCH` line for every
attribute whose key starts with `--` (Python: `key[:2] != '--'`
skips), in dict insertion order; the looked-up `value = node[key]` is
the value stored with the key. -/
def sbatchAttrLines : List (String × String) → List String
  | [] => []
  | (k, v) :: rest =>
    if strHasPre "--" k then ("#SBATCH " ++ k ++ v) :: sbatchAttrLines rest
    else sbatchAttrLines rest

/-- Embedding of the per-node body of `generate_task_files`
(`executor.py`, lines 67-89), producing the lines of one task file.
`execPath` stands for `os.path.abspath(dir + '/' + executable_name(node))`
and `before`/`after` for the opaque command lists contributed by
`plugins.generate_before`/`generate_after`, collaborators outside the
provided sources. -/
def taskFileLines (n : Node) (execPath : String) (before after : List String) :
    List String :=
  ["#!/usr/bin/env bash"]
  ++ sbatchAttrLines n.attributes
  ++ (if n.tasks > 1 then ["#SBATCH --array 0-" ++ toString (n.tasks - 1)] else [])
  ++ before
  ++ ["python -u -m awflow.bin.processor " ++ execPath ++
        (if n.tasks > 1 then " $SLURM_ARRAY_TASK_ID" else "")]
  ++ after

/-- Embedding of `node_task_filename` (`executor.py`, lines 96-97):
`str(id(node)) + ".sbatch"`, with Python `id(node)` modelled by the
node's stable unique `identifier`. -/
def node_task_filename (n : Node) : String := toString n.identifier ++ ".sbatch"

/-- Embedding of `generate_task_files` (`executor.py`, lines 66-93) as
the list of (file name, file lines) pairs it writes, one per workflow
node, in node order. -/
def generate_task_files (nodes : List Node) (dir : String)
    (execPathOf : Node → String) (before after : Node → List String) :
    List (String × List String) :=
  nodes.map fun n =>
    (dir ++ "/" ++ node_task_filename n,
     taskFileLines n (execPathOf n) (before n) (after n))

/-- Python-dict assignment for the `tasks` book-keeping dict of
`generate_submission_script` (identifier ↦ task index). -/
def dictSet (d : List (Nat × Nat)) (k v : Nat) : List (Nat × Nat) :=
  match d with
  | [] => [(k, v)]
  | (k0, v0) :: rest => if k0 = k then (k0, v) :: rest else (k0, v0) :: dictSet rest k v

/-- Python-dict lookup for the `tasks` book-keeping dict. -/
def dictGet (d : List (Nat × Nat)) (k : Nat) : Option Nat :=
  match d with
  | [] => none
  | (k0, v0) :: rest => if k0 = k then some v0 else dictGet rest k

/-- The state of the `tasks` dict of `generate_submission_script`
after the assignments `tasks[task.identifier] = task_index` of the
first `m` loop iterations. -/
def tasksDictUpto (prog : List Node) : Nat → List (Nat × Nat)
  | 0 => []
  | m + 1 =>
    match prog[m]? with
    | some node => dictSet (tasksDictUpto prog m) node.identifier m
    | none => tasksDictUpto prog m

/-- Embedding of the dependency-flag loop of
`generate_submission_script` (`executor.py`, lines 110-114): extend
the flag with `:$t<index>` per dependency; a failing dict lookup (a
`KeyError` in Python) yields `none`. -/
def depFlagAux (d : List (Nat × Nat)) : List Nat → String → Option String
  | [], acc => some acc
  | depId :: rest, acc =>
    match dictGet d depId with
    | some j => depFlagAux d rest (acc ++ ":$t" ++ toString j)
    | none => none

/-- Embedding of the per-task line of `generate_submission_script`
(`executor.py`, lines 108-116): `t<i>=$(sbatch [--dependency=afterok…]
<dir>/<task file>)`. -/
def taskLine (d : List (Nat × Nat)) (i : Nat) (task : Node) (dir : String) :
    Option String :=
  let base := "t" ++ toString i ++ "=$(sbatch "
  let tail := dir ++ "/" ++ node_task_filename task ++ ")"
  if task.dependencies.isEmpty then some (base ++ tail)
  else
    match depFlagAux d task.dependencies "--dependency=afterok" with
    | some flag => some (base ++ flag ++ " " ++ tail)
    | none => none

/-- The main loop of `generate_submission_script` over
`enumerate(workflow.program())`, carrying the `tasks` dict: assign
`tasks[task.identifier] = task_index`, then build the task's sbatch
line. -/
def genTaskLinesAux (dir : String) : List Node → Nat → List (Nat × Nat) → Option (List String)
  | [], _, _ => some []
  | task :: rest, i, d =>
    let d1 := dictSet d task.identifier i
    match taskLine d1 i task dir with
    | some line => (genTaskLinesAux dir rest (i + 1) d1).map (line :: ·)
    | none => none

/-- The trailing `job_identifiers` echo block of
`generate_submission_script` (`executor.py`, lines 103, 118-119). -/
def jobIdentifiers (count : Nat) (dir : String) : String :=
  "echo \"" ++ String.join ((List.range count).map fun i => "$t" ++ toString i ++ "\n")
    ++ "\" > " ++ dir ++ "/job_identifiers"

/-- Embedding of `generate_submission_script` (`executor.py`, lines
100-124): the lines of the `pipeline` file (header, one sbatch line
per task of `workflow.program()`) together with the final echo block. -/
def generate_submission_script (prog : List Node) (dir : String) :
    Option (List String × String) :=
  (genTaskLinesAux dir prog 0 []).map fun ts =>
    (["#!/usr/bin/env bash", "mkdir -p " ++ dir ++ "/logs"] ++ ts,
     jobIdentifiers prog.length dir)

/-- The workflow graph, owning all registered nodes in registration
order (missing `awflow/dawg.py`; modelled from the spec). -/
structure Graph where
  nodes : List Node
deriving DecidableEq

/-- Modelled from the spec: the fresh `Node` created for a task
definition on first registration — replica count 1, no attributes, no
dependencies; the task definition itself is abstracted to its stable
identity `f`, which also serves as display name. -/
def mkNode (f : Nat) : Node :=
  { identifier := f, name := toString f, tasks := 1, attributes := [], dependencies := [] }

def Graph.hasNode (g : Graph) (f : Nat) : Bool :=
  g.nodes.any fun n => n.identifier = f

/-- Modelled from the spec: `add_and_get_node` (missing
`awflow/utils/dawg.py`) is the Graph's `get_or_create`: return the
canonical node for a task definition, registering a fresh node on
first reference.  Since a definition's node is addressed by its
identity `f`, the returned node is the graph's node with identifier
`f` and we return the updated graph. -/
def addAndGetNode (g : Graph) (f : Nat) : Graph :=
  if g.hasNode f then g else ⟨g.nodes ++ [mkNode f]⟩

/-- Update the (unique) registered node of a task definition in
place, as Python attribute/dependency mutation on the shared `Node`
object does. -/
def updateNode (g : Graph) (f : Nat) (upd : Node → Node) : Graph :=
  ⟨g.nodes.map fun n => if n.identifier = f then upd n else n⟩

/-- The dependency set of the registered node of `f` (empty when `f`
is unregistered). -/
def depsOf (g : Graph) (f : Nat) : List Nat :=
  match g.nodes.find? (fun n => n.identifier = f) with
  | some n => n.dependencies
  | none => []

/-- The attribute mapping of the registered node of `f` (empty when
`f` is unregistered). -/
def attrsOf (g : Graph) (f : Nat) : List (String × String) :=
  match g.nodes.find? (fun n => n.identifier = f) with
  | some n => n.attributes
  | none => []

/-- Modelled from the spec: `node.add_dependency(dependency_node)`
(missing `awflow/node.py`) inserts the dependency reference into the
node's dependency set. -/
def addDependency (g : Graph) (f depId : Nat) : Graph :=
  updateNode g f fun n =>
    { n with dependencies :=
        if depId ∈ n.dependencies then n.dependencies else n.dependencies ++ [depId] }

/-- The error raised for a self-dependency: in the source a
`ValueError("A function cannot depend on itself.")`, the spec's
`SelfDependencyError`. -/
inductive DeclError where
  | selfDependency
deriving DecidableEq

/-- The dependency loop of the `dependency` decorator
(`decorators/node.py`, lines 24-29): for each declared dependency,
first test `f == dependency` and raise on equality, otherwise
register the dependency and add the edge.  The graph state reached at
the moment of the raise is returned alongside the error, as Python
mutations performed before an exception persist. -/
def depLoop (f : Nat) : Graph → List Nat → Graph × Option DeclError
  | g, [] => (g, none)
  | g, d :: rest =>
    if f = d then (g, some DeclError.selfDependency)
    else depLoop f (addDependency (addAndGetNode g d) f d) rest

/-- Embedding of the `dependency` decorator (`decorators/node.py`,
lines 19-31): register `f`, then process the declared dependency list
(a single instance having been wrapped into a one-element list by the
`is_iterable` test); on success return `f` unchanged. -/
def dependency (g : Graph) (f : Nat) (ds : List Nat) : Graph × Except DeclError Nat :=
  let g1 := addAndGetNode g f
  match depLoop f g1 ds with
  | (g2, none) => (g2, Except.ok f)
  | (g2, some e) => (g2, Except.error e)

/-- Embedding of the `conda` decorator (`decorators/node.py`, lines
34-38): register `f` and set `node["conda"] = environment` on its
node; returns `f`. -/
def conda (g : Graph) (f : Nat) (env : String) : Graph × Nat :=
  (updateNode (addAndGetNode g f) f
    (fun n => { n with attributes := attrSet n.attributes "conda" env }), f)

/-- Modelled from the spec: the snapshot of postcondition results
taken by `generate_postconditions` before pruning, one boolean per
node identity. -/
def postSnapshot (nodes : List Node) (post : Nat → Bool) : List (Nat × Bool) :=
  nodes.map fun n => (n.identifier, post n.identifier)

/-- Lookup in the postcondition snapshot. -/
def snapGet (d : List (Nat × Bool)) (k : Nat) : Option Bool :=
  match d with
  | [] => none
  | (k0, v0) :: rest => if k0 = k then some v0 else snapGet rest k

/-- Modelled from the spec: `workflow.prune()` (missing
`awflow/dawg.py`) consumes the postcondition snapshot — it keeps
exactly the nodes whose cached postcondition is false (an absent
entry means "must run") and drops dependency edges pointing at pruned
nodes, so surviving dependency sets reference surviving nodes only. -/
def pruneNodes (nodes : List Node) (snap : List (Nat × Bool)) : List Node :=
  let surv := nodes.filter fun n => !((snapGet snap n.identifier).getD false)
  let ids := surv.map (·.identifier)
  surv.map fun n => { n with dependencies := n.dependencies.filter (fun d => ids.contains d) }

/-- The observable effects of `execute`, in program order. -/
inductive Event where
  | makeBaseDir (dir : String)
  | makeTempDir (dir : String)
  | programCall
  | applyDefaults
  | generatePostconditions (dir : String)
  | pruneCall
  | generateExecutables (dir : String)
  | generateMetadata (dir : String)
  | addDefaultAttributesCall
  | generateTaskFilesCall (dir : String)
  | generateSubmissionScriptCall (dir : String)
  | submitCall (dir : String)
  | printSubmitted (dir : String)
  | printError (msg : String)
  | removeTree (dir : String)
deriving DecidableEq

/-- Embedding of `submit` (`executor.py`, lines 127-131): `os.system`
returning `rc`; a nonzero return code raises
`Exception("Failed to submit pipeline.")`, otherwise a success
message is printed. -/
def submitRun (dir : String) (rc : Int) : Except String (List Event) :=
  if rc = 0 then Except.ok [Event.printSubmitted dir]
  else Except.error "Failed to submit pipeline."

/-- Embedding of `execute` (`executor.py`, lines 19-42) as its trace
of observable effects.  `tmpdir` is the generated working directory
(`tempfile.mkdtemp`), `rc` the scheduler's return code.  After the
postcondition snapshot and pruning, a nonempty surviving set leads to
file generation, submission preparation (`prepare_submission` =
default attributes, task files, submission script) and the guarded
`submit` call whose exception is caught, printed and answered by
removing the working directory; an empty surviving set leads directly
to removing the working directory.  The function is total: `execute`
returns normally in every modelled run. -/
def executeTrace (nodes : List Node) (post : Nat → Bool) (rc : Int)
    (dir tmpdir : String) : List Event :=
  let pruned := pruneNodes nodes (postSnapshot nodes post)
  [Event.makeBaseDir dir, Event.makeTempDir tmpdir, Event.programCall,
   Event.applyDefaults, Event.generatePostconditions tmpdir, Event.pruneCall] ++
  (if pruned.length > 0 then
    [Event.generateExecutables tmpdir, Event.generateMetadata tmpdir,
     Event.addDefaultAttributesCall, Event.generateTaskFilesCall tmpdir,
     Event.generateSubmissionScriptCall tmpdir, Event.submitCall tmpdir] ++
    (match submitRun tmpdir rc with
     | Except.ok evs => evs
     | Except.error e => [Event.printError e, Event.removeTree tmpdir])
   else [Event.removeTree tmpdir])

theorem charsAppend_clash {p q s t : List Char} (n : Nat)
    (hp : p.length = n) (hq : q.length = n) (hne : p ≠ q) : p ++ s ≠ q ++ t := by
  intro h
  have h1 := congrArg (List.take n) h
  rw [List.take_left' hp, List.take_left' hq] at h1
  exact hne h1

theorem strAppend_clash (p q s t : String) (n : Nat)
    (hp : p.data.length = n) (hq : q.data.length = n) (hne : p.data ≠ q.data) :
    p ++ s ≠ q ++ t := by
  intro h
  have hd := congrArg String.data h
  rw [String.data_append, String.data_append] at hd
  exact charsAppend_clash n hp hq hne hd

theorem strLit_ne_append (w q t : String) (n : Nat)
    (hq : q.data.length = n) (hne : w.data.take n ≠ q.data) : w ≠ q ++ t := by
  intro h
  have hd := congrArg String.data h
  rw [String.data_append] at hd
  have h1 := congrArg (List.take n) hd
  rw [List.take_left' hq] at h1
  exact hne h1

theorem str_ne_append_right (s t : String) (h : t ≠ "") : s ≠ s ++ t := by
  intro he
  have hd := congrArg (fun x => x.data.length) he
  simp only [String.data_append, List.length_append] at hd
  have ht : t.data = [] := by
    have h0 : t.data.length = 0 := by omega
    exact List.eq_nil_of_length_eq_zero h0
  apply h
  cases t with
  | mk d =>
    have hd' : d = [] := ht
    subst hd'
    decide

theorem attrGet_cons (k0 v0 : String) (rest : List (String × String)) (k : String) :
    attrGet ((k0, v0) :: rest) k = if k0 = k then some v0 else attrGet rest k := by
  by_cases h : k0 = k <;> simp [attrGet, h]

theorem attrGet_attrSet_self (d : List (String × String)) (k v : String) :
    attrGet (attrSet d k v) k = some v := by
  induction d with
  | nil => simp [attrSet, attrGet]
  | cons hd tl ih =>
    obtain ⟨k0, v0⟩ := hd
    by_cases h : k0 = k
    · simp [attrSet, h, attrGet_cons]
    · simp [attrSet, h, attrGet_cons, ih]

theorem attrGet_attrSet_of_ne (d : List (String × String)) (k k' v : String)
    (h : k' ≠ k) : attrGet (attrSet d k' v) k = attrGet d k := by
  induction d with
  | nil => simp [attrSet, attrGet_cons, h, attrGet]
  | cons hd tl ih =>
    obtain ⟨k0, v0⟩ := hd
    by_cases h0 : k0 = k'
    · subst h0
      simp [attrSet, attrGet_cons, h]
    · by_cases h1 : k0 = k <;> simp [attrSet, h0, attrGet_cons, h1, ih, Ne.symm h]

theorem sbatchAttrLines_eq (attrs : List (String × String)) :
    sbatchAttrLines attrs =
      (attrs.filter fun kv => strHasPre "--" kv.1).map
        (fun kv => "#SBATCH " ++ kv.1 ++ kv.2) := by
  induction attrs with
  | nil => simp [sbatchAttrLines]
  | cons hd tl ih =>
    obtain ⟨k, v⟩ := hd
    by_cases h : strHasPre "--" k <;> simp [sbatchAttrLines, h, ih]

theorem mem_sbatchAttrLines {l : String} {attrs : List (String × String)}
    (h : l ∈ sbatchAttrLines attrs) :
    ∃ kv ∈ attrs, strHasPre "--" kv.1 = true ∧ l = "#SBATCH " ++ kv.1 ++ kv.2 := by
  rw [sbatchAttrLines_eq] at h
  simp only [List.mem_map, List.mem_filter] at h
  obtain ⟨kv, ⟨hmem, hpre⟩, rfl⟩ := h
  exact ⟨kv, hmem, hpre, rfl⟩

theorem sbatchAttrLines_start (attrs : List (String × String)) :
    ∀ l ∈ sbatchAttrLines attrs, strHasPre "#SBATCH --" l = true := by
  intro l hl
  obtain ⟨⟨k, v⟩, _, hpre, rfl⟩ := mem_sbatchAttrLines hl
  simp only [strHasPre, List.isPrefixOf_iff_prefix] at hpre ⊢
  obtain ⟨t, ht⟩ := hpre
  refine ⟨t ++ v.data, ?_⟩
  rw [String.data_append, String.data_append, ← ht]
  have h8 : ("#SBATCH ".data : List Char) = ['#', 'S', 'B', 'A', 'T', 'C', 'H', ' '] := by
    decide
  rw [h8]
  simp

theorem str_head_clash {a b : String} {c1 c2 : Char} (h1 : a.data.head? = some c1)
    (h2 : b.data.head? = some c2) (hne : c1 ≠ c2) : a ≠ b := by
  intro h
  rw [h, h2] at h1
  exact hne (Option.some.inj h1).symm

theorem head?_strAppend (s t : String) (c : Char) (h : s.data.head? = some c) :
    (s ++ t).data.head? = some c := by
  rw [String.data_append]
  cases hs : s.data with
  | nil => rw [hs] at h; simp at h
  | cons a l =>
    rw [hs] at h
    simp only [List.head?_cons, Option.some.injEq] at h
    simp [h]

theorem sbatchAttrLines_head (attrs : List (String × String)) :
    ∀ l ∈ sbatchAttrLines attrs, l.data.head? = some '#' := by
  intro l hl
  obtain ⟨⟨k, v⟩, _, _, rfl⟩ := mem_sbatchAttrLines hl
  exact head?_strAppend _ _ _ (head?_strAppend _ _ _ (by decide))

theorem hasNode_iff_find (g : Graph) (f : Nat) :
    g.hasNode f = true ↔ ∃ n, g.nodes.find? (fun x => x.identifier = f) = some n := by
  rw [Graph.hasNode, List.any_eq_true]
  constructor
  · rintro ⟨x, hx, hp⟩
    exact Option.isSome_iff_exists.mp (List.find?_isSome.mpr ⟨x, hx, hp⟩)
  · rintro ⟨n, hn⟩
    have hp := List.find?_some hn
    exact ⟨n, List.mem_of_find?_eq_some hn, hp⟩

theorem find_id_of_some {g : Graph} {f : Nat} {n : Node}
    (h : g.nodes.find? (fun x => x.identifier = f) = some n) : n.identifier = f := by
  simpa using List.find?_some h

theorem find_addAndGetNode_self (g : Graph) (f : Nat) :
    ∃ n, (addAndGetNode g f).nodes.find? (fun x => x.identifier = f) = some n := by
  by_cases h : g.hasNode f
  · rw [addAndGetNode, if_pos h]
    exact (hasNode_iff_find g f).mp h
  · rw [addAndGetNode, if_neg h]
    have hnone : g.nodes.find? (fun x => x.identifier = f) = none := by
      rw [List.find?_eq_none]
      intro x hx hp
      exact h ((hasNode_iff_find g f).mpr (Option.isSome_iff_exists.mp
        (List.find?_isSome.mpr ⟨x, hx, hp⟩)))
    refine ⟨mkNode f, ?_⟩
    show (g.nodes ++ [mkNode f]).find? (fun x => x.identifier = f) = some (mkNode f)
    rw [List.find?_append, hnone]
    simp [mkNode]

theorem hasNode_addAndGetNode_self (g : Graph) (f : Nat) :
    (addAndGetNode g f).hasNode f = true :=
  (hasNode_iff_find _ f).mpr (find_addAndGetNode_self g f)

theorem find_updateNode (g : Graph) (f x : Nat) (upd : Node → Node)
    (hid : ∀ n, (upd n).identifier = n.identifier) :
    (updateNode g f upd).nodes.find? (fun n => n.identifier = x) =
      Option.map (fun n => if n.identifier = f then upd n else n)
        (g.nodes.find? (fun n => n.identifier = x)) := by
  show (g.nodes.map fun n => if n.identifier = f then upd n else n).find? _ = _
  rw [List.find?_map]
  have hp : ((fun n : Node => decide (n.identifier = x)) ∘
      fun n : Node => if n.identifier = f then upd n else n) =
      fun n : Node => decide (n.identifier = x) := by
    funext n
    by_cases h : n.identifier = f <;> simp [h, hid]
  rw [hp]

theorem attrsOf_updateNode {g : Graph} {f : Nat} {n : Node} (upd : Node → Node)
    (hid : ∀ m, (upd m).identifier = m.identifier)
    (h : g.nodes.find? (fun x => x.identifier = f) = some n) :
    attrsOf (updateNode g f upd) f = (upd n).attributes := by
  rw [attrsOf, find_updateNode g f f upd hid, h]
  simp [find_id_of_some h]

theorem depsOf_updateNode {g : Graph} {f : Nat} {n : Node} (upd : Node → Node)
    (hid : ∀ m, (upd m).identifier = m.identifier)
    (h : g.nodes.find? (fun x => x.identifier = f) = some n) :
    depsOf (updateNode g f upd) f = (upd n).dependencies := by
  rw [depsOf, find_updateNode g f f upd hid, h]
  simp [find_id_of_some h]

theorem depsOf_updateNode_none {g : Graph} {f : Nat} (upd : Node → Node)
    (hid : ∀ m, (upd m).identifier = m.identifier)
    (h : g.nodes.find? (fun x => x.identifier = f) = none) :
    depsOf (updateNode g f upd) f = [] := by
  rw [depsOf, find_updateNode g f f upd hid, h]
  rfl

theorem find_eq_none_of_not_hasNode {g : Graph} {f : Nat} (h : ¬ g.hasNode f = true) :
    g.nodes.find? (fun x => x.identifier = f) = none := by
  rw [List.find?_eq_none]
  intro x hx hp
  exact h ((hasNode_iff_find g f).mpr (Option.isSome_iff_exists.mp
    (List.find?_isSome.mpr ⟨x, hx, hp⟩)))

theorem hasNode_addAndGetNode_mono (g : Graph) (f x : Nat)
    (h : g.hasNode x = true) : (addAndGetNode g f).hasNode x = true := by
  by_cases hg : g.hasNode f
  · rw [addAndGetNode, if_pos hg]
    exact h
  · rw [addAndGetNode, if_neg hg]
    unfold Graph.hasNode at h ⊢
    rw [List.any_append, h]
    rfl

theorem hasNode_updateNode (g : Graph) (f x : Nat) (upd : Node → Node)
    (hid : ∀ n, (upd n).identifier = n.identifier) :
    (updateNode g f upd).hasNode x = g.hasNode x := by
  unfold Graph.hasNode updateNode
  rw [List.any_map]
  congr 1
  funext n
  by_cases h : n.identifier = f <;> simp [h, hid]

theorem depsOf_addAndGetNode_of_hasNode (g : Graph) (d f : Nat)
    (hf : g.hasNode f = true) : depsOf (addAndGetNode g d) f = depsOf g f := by
  by_cases hg : g.hasNode d
  · rw [addAndGetNode, if_pos hg]
  · rw [addAndGetNode, if_neg hg]
    obtain ⟨n, hn⟩ := (hasNode_iff_find g f).mp hf
    unfold depsOf
    rw [show (Graph.mk (g.nodes ++ [mkNode d])).nodes = g.nodes ++ [mkNode d] from rfl,
      List.find?_append, hn]
    rfl

theorem not_self_dep_addAndGetNode (g : Graph) (d f : Nat) (h0 : f ∉ depsOf g f) :
    f ∉ depsOf (addAndGetNode g d) f := by
  by_cases hf : g.hasNode f
  · rw [depsOf_addAndGetNode_of_hasNode g d f hf]
    exact h0
  · have hnone := find_eq_none_of_not_hasNode hf
    by_cases hg : g.hasNode d
    · rw [addAndGetNode, if_pos hg]
      rw [depsOf, hnone]
      simp
    · rw [addAndGetNode, if_neg hg]
      unfold depsOf
      rw [show (Graph.mk (g.nodes ++ [mkNode d])).nodes = g.nodes ++ [mkNode d] from rfl,
        List.find?_append, hnone]
      by_cases hdf : d = f
      · subst hdf
        simp [List.find?, mkNode]
      · simp [List.find?, mkNode, hdf]

theorem hasNode_addDependency (g : Graph) (f d x : Nat) :
    (addDependency g f d).hasNode x = g.hasNode x :=
  hasNode_updateNode g f x _ (fun _ => rfl)

theorem depsOf_addDependency_self {g : Graph} {f : Nat} {n : Node} (d : Nat)
    (hn : g.nodes.find? (fun x => x.identifier = f) = some n) :
    depsOf (addDependency g f d) f =
      if d ∈ n.dependencies then n.dependencies else n.dependencies ++ [d] :=
  depsOf_updateNode _ (fun _ => rfl) hn

theorem mem_depsOf_addDependency_self {g : Graph} {f : Nat} {n : Node} (d : Nat)
    (hn : g.nodes.find? (fun x => x.identifier = f) = some n) :
    d ∈ depsOf (addDependency g f d) f := by
  rw [depsOf_addDependency_self d hn]
  by_cases h : d ∈ n.dependencies
  · rw [if_pos h]; exact h
  · rw [if_neg h]; exact List.mem_append_right _ (List.mem_singleton_self d)

theorem mem_depsOf_addDependency_mono {g : Graph} {f x : Nat} (d : Nat)
    (hx : x ∈ depsOf g f) : x ∈ depsOf (addDependency g f d) f := by
  cases hn : g.nodes.find? (fun y => y.identifier = f) with
  | none => rw [depsOf, hn] at hx; simp at hx
  | some n =>
    have hold : depsOf g f = n.dependencies := by rw [depsOf, hn]
    rw [hold] at hx
    rw [depsOf_addDependency_self d hn]
    by_cases h : d ∈ n.dependencies
    · rw [if_pos h]; exact hx
    · rw [if_neg h]; exact List.mem_append_left _ hx

theorem not_self_dep_addDependency (g : Graph) (f d : Nat) (hd : d ≠ f)
    (h0 : f ∉ depsOf g f) : f ∉ depsOf (addDependency g f d) f := by
  cases hn : g.nodes.find? (fun y => y.identifier = f) with
  | none =>
    have h1 : depsOf (addDependency g f d) f = [] := by
      rw [addDependency]
      exact depsOf_updateNode_none _ (fun _ => rfl) hn
    rw [h1]
    simp
  | some n =>
    have hold : depsOf g f = n.dependencies := by rw [depsOf, hn]
    rw [hold] at h0
    rw [depsOf_addDependency_self d hn]
    intro hmem
    by_cases h : d ∈ n.dependencies
    · rw [if_pos h] at hmem; exact h0 hmem
    · rw [if_neg h] at hmem
      rcases List.mem_append.mp hmem with hl | hr
      · exact h0 hl
      · exact hd (List.mem_singleton.mp hr).symm

theorem depLoop_ok (f : Nat) (ds : List Nat) (hf : ∀ d ∈ ds, d ≠ f) :
    ∀ g : Graph, g.hasNode f = true →
    ∃ g2, depLoop f g ds = (g2, none) ∧
      g2.hasNode f = true ∧
      (∀ x, g.hasNode x = true → g2.hasNode x = true) ∧
      (∀ x, x ∈ depsOf g f → x ∈ depsOf g2 f) ∧
      (∀ d ∈ ds, g2.hasNode d = true ∧ d ∈ depsOf g2 f) := by
  induction ds with
  | nil =>
    intro g hg
    exact ⟨g, rfl, hg, fun x h => h, fun x h => h, by simp⟩
  | cons d rest ih =>
    intro g hg
    have hdf : f ≠ d := fun h => (hf d (List.mem_cons_self d rest)) h.symm
    have hg1 : (addAndGetNode g d).hasNode f = true := hasNode_addAndGetNode_mono g d f hg
    have hg1' : (addDependency (addAndGetNode g d) f d).hasNode f = true := by
      rw [hasNode_addDependency]; exact hg1
    obtain ⟨n1, hn1⟩ := (hasNode_iff_find _ f).mp hg1
    obtain ⟨g2, hloop, hg2f, hmono, hdeps, hrest⟩ :=
      ih (fun x hx => hf x (List.mem_cons_of_mem d hx)) (addDependency (addAndGetNode g d) f d) hg1'
    refine ⟨g2, ?_, hg2f, ?_, ?_, ?_⟩
    · rw [depLoop, if_neg hdf]
      exact hloop
    · intro x hx
      apply hmono
      rw [hasNode_addDependency]
      exact hasNode_addAndGetNode_mono g d x hx
    · intro x hx
      apply hdeps
      apply mem_depsOf_addDependency_mono
      rw [depsOf_addAndGetNode_of_hasNode g d f hg]
      exact hx
    · intro e he
      rcases List.mem_cons.mp he with rfl | hmem
      · refine ⟨?_, hdeps e (mem_depsOf_addDependency_self e hn1)⟩
        apply hmono
        rw [hasNode_addDependency]
        exact hasNode_addAndGetNode_self g e
      · exact hrest e hmem

/-- C5: a `dependency(f, ds)` declaration in which no element of `ds`
equals `f` succeeds: it returns `f` itself (`Except.ok f`), registers
`f` and every element of `ds` in the Graph, and adds each element to
`f`'s node's dependency set. -/
theorem c5_dependency_declaration (g : Graph) (f : Nat) (ds : List Nat)
    (hf : ∀ d ∈ ds, d ≠ f) :
    (dependency g f ds).2 = Except.ok f ∧
    (dependency g f ds).1.hasNode f = true ∧
    ∀ d ∈ ds, (dependency g f ds).1.hasNode d = true ∧
      d ∈ depsOf (dependency g f ds).1 f := by
  obtain ⟨g2, hloop, hg2f, _, _, hds⟩ :=
    depLoop_ok f ds hf (addAndGetNode g f) (hasNode_addAndGetNode_self g f)
  rw [dependency]
  rw [hloop]
  exact ⟨rfl, hg2f, hds⟩

/-- Witness for C5: declaring that task 0 depends on tasks 1 and 2 in
an empty graph. -/
theorem c5_dependency_declaration_witness :
    (dependency ⟨[]⟩ 0 [1, 2]).2 = Except.ok 0 ∧
    (dependency ⟨[]⟩ 0 [1, 2]).1.hasNode 0 = true ∧
    ∀ d ∈ [1, 2], (dependency ⟨[]⟩ 0 [1, 2]).1.hasNode d = true ∧
      d ∈ depsOf (dependency ⟨[]⟩ 0 [1, 2]).1 0 :=
  c5_dependency_declaration ⟨[]⟩ 0 [1, 2] (by decide)

theorem depLoop_error_of_mem (f : Nat) (ds : List Nat) (hmem : f ∈ ds) :
    ∀ g : Graph, f ∉ depsOf g f →
    ∃ g2, depLoop f g ds = (g2, some DeclError.selfDependency) ∧
      f ∉ depsOf g2 f := by
  induction ds with
  | nil => simp at hmem
  | cons d rest ih =>
    intro g h0
    by_cases hfd : f = d
    · exact ⟨g, by rw [depLoop, if_pos hfd], h0⟩
    · have hmem' : f ∈ rest := by
        rcases List.mem_cons.mp hmem with h | h
        · exact absurd h hfd
        · exact h
      rw [depLoop, if_neg hfd]
      apply ih hmem'
      exact not_self_dep_addDependency _ f d (fun h => hfd h.symm)
        (not_self_dep_addAndGetNode g d f h0)

/-- C2 counterexample: declaring that task 0 depends on itself in an
empty graph raises the self-dependency error, but the Graph is NOT
left unchanged — the failed declaration has already registered node
0 (`add_and_get_node(f)` runs before the self-dependency check). -/
theorem c2_self_dependency_counterexample :
    (dependency ⟨[]⟩ 0 [0]).2 = Except.error DeclError.selfDependency ∧
    (dependency ⟨[]⟩ 0 [0]).1 ≠ (⟨[]⟩ : Graph) :=
  ⟨rfl, by decide⟩

/-- C2 (amended): declaring that `f` depends on a list containing `f`
raises the self-dependency error and adds no self-edge `f → f`
(provided none existed before); however, the Graph is not left
unchanged in general — `f`'s node, and any dependencies listed before
`f` together with their edges, are registered before the error is
raised. -/
theorem c2_self_dependency_amended (g : Graph) (f : Nat) (ds : List Nat)
    (hmem : f ∈ ds) (h0 : f ∉ depsOf g f) :
    (dependency g f ds).2 = Except.error DeclError.selfDependency ∧
    f ∉ depsOf (dependency g f ds).1 f := by
  obtain ⟨g2, hloop, hg2⟩ := depLoop_error_of_mem f ds hmem (addAndGetNode g f)
    (not_self_dep_addAndGetNode g f f h0)
  rw [dependency]
  rw [hloop]
  exact ⟨rfl, hg2⟩

/-- Witness for the amended C2: task 0 declared to depend on `[1, 0]`
in an empty graph. -/
theorem c2_self_dependency_amended_witness :
    (dependency ⟨[]⟩ 0 [1, 0]).2 = Except.error DeclError.selfDependency ∧
    0 ∉ depsOf (dependency ⟨[]⟩ 0 [1, 0]).1 0 :=
  c2_self_dependency_amended ⟨[]⟩ 0 [1, 0] (by decide) (by decide)

/-- C7: the task-file generator emits an `#SBATCH <key><value>` line
for an attribute exactly when its key carries the reserved `--`
prefix, and the emitted lines appear in the attributes' insertion
order (the emitted list is the order-preserving filter of the
attribute list); consequently every emitted directive starts with
`#SBATCH --`.  The `conda` decorator stores its environment under the
prefix-free key `conda` on the node, and no `#SBATCH conda…` line is
ever emitted. -/
theorem c7_sbatch_directive_lines (attrs : List (String × String))
    (g : Graph) (f : Nat) (env : String) :
    sbatchAttrLines attrs =
      (attrs.filter fun kv => strHasPre "--" kv.1).map
        (fun kv => "#SBATCH " ++ kv.1 ++ kv.2) ∧
    (∀ l ∈ sbatchAttrLines attrs, strHasPre "#SBATCH --" l = true) ∧
    attrGet (attrsOf (conda g f env).1 f) "conda" = some env ∧
    ("#SBATCH conda" ++ env) ∉ sbatchAttrLines attrs := by
  refine ⟨sbatchAttrLines_eq attrs, sbatchAttrLines_start attrs, ?_, ?_⟩
  · obtain ⟨n, hn⟩ := find_addAndGetNode_self g f
    rw [conda]
    rw [attrsOf_updateNode (fun n => { n with attributes := attrSet n.attributes "conda" env })
      (fun m => rfl) hn]
    exact attrGet_attrSet_self _ _ _
  · intro hmem
    have hst := sbatchAttrLines_start attrs _ hmem
    simp only [strHasPre, List.isPrefixOf_iff_prefix] at hst
    obtain ⟨t, ht⟩ := hst
    rw [String.data_append] at ht
    have hco : "#SBATCH conda".data = "#SBATCH co".data ++ "nda".data := by decide
    rw [hco, List.append_assoc] at ht
    exact charsAppend_clash 10 (by decide) (by decide) (by decide) ht

/-- Witness for C7 at a concrete attribute list and conda call. -/
theorem c7_sbatch_directive_lines_witness :
    strHasPre "#SBATCH --" "#SBATCH --gres=gpu:1" = true ∧
    attrGet (attrsOf (conda ⟨[]⟩ 3 "base").1 3) "conda" = some "base" := by
  have h := c7_sbatch_directive_lines [("--gres=", "gpu:1"), ("conda", "base")] ⟨[]⟩ 3 "base"
  refine ⟨h.2.1 _ ?_, h.2.2.1⟩
  rw [h.1]
  decide

theorem dictGet_dictSet_self (d : List (Nat × Nat)) (k v : Nat) :
    dictGet (dictSet d k v) k = some v := by
  induction d with
  | nil => simp [dictSet, dictGet]
  | cons hd tl ih =>
    obtain ⟨k0, v0⟩ := hd
    by_cases h : k0 = k <;> simp [dictSet, h, dictGet, ih]

theorem dictGet_dictSet_of_ne (d : List (Nat × Nat)) (k k' v : Nat)
    (h : k' ≠ k) : dictGet (dictSet d k' v) k = dictGet d k := by
  induction d with
  | nil => simp [dictSet, dictGet, h]
  | cons hd tl ih =>
    obtain ⟨k0, v0⟩ := hd
    by_cases h0 : k0 = k'
    · subst h0
      simp [dictSet, dictGet, h, Ne.symm h]
    · by_cases h1 : k0 = k <;> simp [dictSet, h0, dictGet, h1, ih, Ne.symm h]

theorem identifier_get_ne {prog : List Node}
    (hnodup : (prog.map Node.identifier).Nodup) {j m : Nat}
    (hj : j < prog.length) (hm : m < prog.length) (hjm : j ≠ m) :
    (prog.get ⟨j, hj⟩).identifier ≠ (prog.get ⟨m, hm⟩).identifier := by
  intro h
  have hlj : j < (prog.map Node.identifier).length := by simpa using hj
  have hlm : m < (prog.map Node.identifier).length := by simpa using hm
  have hget : (prog.map Node.identifier).get ⟨j, hlj⟩ =
      (prog.map Node.identifier).get ⟨m, hlm⟩ := by
    simpa [List.getElem_map, List.get_eq_getElem] using h
  exact hjm (Fin.mk.injEq _ _ _ _ ▸ hnodup.get_inj_iff.mp hget)

theorem dictGet_tasksDictUpto {prog : List Node}
    (hnodup : (prog.map Node.identifier).Nodup) {m j : Nat}
    (hj : j < prog.length) (hjm : j < m) :
    dictGet (tasksDictUpto prog m) ((prog.get ⟨j, hj⟩).identifier) = some j := by
  induction m with
  | zero => omega
  | succ m ih =>
    by_cases hm : m < prog.length
    · have hgm : prog[m]? = some (prog.get ⟨m, hm⟩) := by
        rw [List.getElem?_eq_getElem hm]
        simp [List.get_eq_getElem]
      rw [tasksDictUpto, hgm]
      by_cases hjeq : j = m
      · subst hjeq
        exact dictGet_dictSet_self _ _ _
      · rw [dictGet_dictSet_of_ne _ _ _ _
          (identifier_get_ne hnodup hm hj (fun h => hjeq h.symm))]
        exact ih (by omega)
    · have hgm : prog[m]? = none := by
        rw [List.getElem?_eq_none]
        omega
      rw [tasksDictUpto, hgm]
      exact ih (by omega)

/-- C1: under the precondition that `workflow.program()` returns a
topologically sorted sequence — each node appears once (distinct
identifiers) and every dependency of a node occurs at a strictly
earlier position — the lookup `tasks[dependency.identifier]` done at
iteration `i` of `generate_submission_script` (that is, on the dict
state after the iteration's own assignment, `tasksDictUpto prog
(i+1)`) always succeeds, and the index it returns is strictly smaller
than the dependent task's own index `i`. -/
theorem c1_dependency_indices (prog : List Node)
    (hnodup : (prog.map Node.identifier).Nodup)
    (htopo : ∀ i (hi : i < prog.length), ∀ d ∈ (prog.get ⟨i, hi⟩).dependencies,
      ∃ j, ∃ hj : j < prog.length, j < i ∧ (prog.get ⟨j, hj⟩).identifier = d)
    (i : Nat) (hi : i < prog.length) (d : Nat)
    (hd : d ∈ (prog.get ⟨i, hi⟩).dependencies) :
    ∃ j, dictGet (tasksDictUpto prog (i + 1)) d = some j ∧ j < i := by
  obtain ⟨j, hj, hji, hid⟩ := htopo i hi d hd
  refine ⟨j, ?_, hji⟩
  rw [← hid]
  exact dictGet_tasksDictUpto hnodup hj (Nat.lt_succ_of_lt hji)

/-- Witness for C1 on the two-node program `[A, B]` where `B` depends
on `A`. -/
theorem c1_dependency_indices_witness :
    ∃ j, dictGet (tasksDictUpto [⟨0, "a", 1, [], []⟩, ⟨1, "b", 1, [], [0]⟩] (1 + 1))
      0 = some j ∧ j < 1 := by
  refine c1_dependency_indices [⟨0, "a", 1, [], []⟩, ⟨1, "b", 1, [], [0]⟩]
    (by decide) ?_ 1 (by decide) 0 (by simp)
  intro i hi d hd
  have h2 : i = 0 ∨ i = 1 := by
    have hlt : i < 2 := by simpa using hi
    omega
  rcases h2 with rfl | rfl
  · simp at hd
  · simp at hd
    subst hd
    exact ⟨0, by decide, by decide, rfl⟩

theorem tasksDictUpto_succ (prog : List Node) (i : Nat) (hi : i < prog.length) :
    tasksDictUpto prog (i + 1) =
      dictSet (tasksDictUpto prog i) ((prog.get ⟨i, hi⟩).identifier) i := by
  rw [tasksDictUpto, List.getElem?_eq_getElem hi]
  simp [List.get_eq_getElem]

theorem depFlagAux_some (d : List (Nat × Nat)) (deps : List Nat)
    (h : ∀ x ∈ deps, ∃ j, dictGet d x = some j) :
    ∀ acc, ∃ s, depFlagAux d deps acc = some s := by
  induction deps with
  | nil => exact fun acc => ⟨acc, rfl⟩
  | cons x rest ih =>
    intro acc
    obtain ⟨j, hj⟩ := h x (List.mem_cons_self x rest)
    obtain ⟨s, hs⟩ := ih (fun y hy => h y (List.mem_cons_of_mem x hy))
      (acc ++ ":$t" ++ toString j)
    exact ⟨s, by rw [depFlagAux, hj]; exact hs⟩

theorem taskLine_some (d : List (Nat × Nat)) (i : Nat) (task : Node) (dir : String)
    (h : ∀ x ∈ task.dependencies, ∃ j, dictGet d x = some j) :
    ∃ p, taskLine d i task dir =
      some (p ++ (dir ++ "/" ++ node_task_filename task ++ ")")) := by
  by_cases he : task.dependencies.isEmpty
  · exact ⟨"t" ++ toString i ++ "=$(sbatch ", by rw [taskLine, if_pos he]⟩
  · obtain ⟨flag, hflag⟩ := depFlagAux_some d task.dependencies h "--dependency=afterok"
    refine ⟨"t" ++ toString i ++ "=$(sbatch " ++ flag ++ " ", ?_⟩
    rw [taskLine, if_neg he, hflag]

theorem genTaskLinesAux_some (dir : String) (prog : List Node)
    (hnodup : (prog.map Node.identifier).Nodup)
    (htopo : ∀ i (hi : i < prog.length), ∀ d ∈ (prog.get ⟨i, hi⟩).dependencies,
      ∃ j, ∃ hj : j < prog.length, j < i ∧ (prog.get ⟨j, hj⟩).identifier = d) :
    ∀ m i, i ≤ prog.length → prog.length - i = m →
    ∃ ls, genTaskLinesAux dir (prog.drop i) i (tasksDictUpto prog i) = some ls ∧
      ls.length = prog.length - i ∧
      ∀ k, k < ls.length → ∃ task p, prog[i + k]? = some task ∧
        ls[k]? = some (p ++ (dir ++ "/" ++ node_task_filename task ++ ")")) := by
  intro m
  induction m with
  | zero =>
    intro i hle hm
    have hdrop : prog.drop i = [] := List.drop_eq_nil_of_le (by omega)
    refine ⟨[], by rw [hdrop]; rfl, by simp only [List.length_nil]; omega, ?_⟩
    intro k hk
    simp at hk
  | succ m ih =>
    intro i hle hm
    have hi : i < prog.length := by omega
    have hdrop : prog.drop i = prog.get ⟨i, hi⟩ :: prog.drop (i + 1) := by
      rw [List.drop_eq_getElem_cons hi]
      simp [List.get_eq_getElem]
    have hdeps : ∀ x ∈ (prog.get ⟨i, hi⟩).dependencies,
        ∃ j, dictGet (tasksDictUpto prog (i + 1)) x = some j := by
      intro x hx
      obtain ⟨j, hj, hji, hid⟩ := htopo i hi x hx
      exact ⟨j, by
        rw [← hid]
        exact dictGet_tasksDictUpto hnodup hj (Nat.lt_succ_of_lt hji)⟩
    obtain ⟨p, hp⟩ := taskLine_some (tasksDictUpto prog (i + 1)) i
      (prog.get ⟨i, hi⟩) dir hdeps
    obtain ⟨rest, hrest, hlen, hidx⟩ := ih (i + 1) (by omega) (by omega)
    refine ⟨(p ++ (dir ++ "/" ++ node_task_filename (prog.get ⟨i, hi⟩) ++ ")")) :: rest,
      ?_, ?_, ?_⟩
    · rw [hdrop, genTaskLinesAux, ← tasksDictUpto_succ prog i hi, hp, hrest]
      rfl
    · simp only [List.length_cons, hlen]
      omega
    · intro k hk
      cases k with
      | zero =>
        refine ⟨prog.get ⟨i, hi⟩, p, ?_, by simp⟩
        show prog[i]? = _
        rw [List.getElem?_eq_getElem hi]
        simp [List.get_eq_getElem]
      | succ k0 =>
        have hk0 : k0 < rest.length := by
          simp only [List.length_cons] at hk
          omega
        obtain ⟨task, p0, htask, hline⟩ := hidx k0 hk0
        refine ⟨task, p0, ?_, ?_⟩
        · rw [show i + (k0 + 1) = (i + 1) + k0 by omega]
          exact htask
        · simpa using hline

/-- The file names under which `generate_task_files` writes the task
files: one per workflow node, `dir/<task filename>`. -/
theorem generate_task_files_names (nodes : List Node) (dir : String)
    (execPathOf : Node → String) (before after : Node → List String) :
    (generate_task_files nodes dir execPathOf before after).map Prod.fst =
      nodes.map (fun n => dir ++ "/" ++ node_task_filename n) := by
  simp [generate_task_files]

/-- C10: under the topological-program precondition, the submission
script consists of the two header lines followed by exactly one
sbatch invocation line per task, in `workflow.program()` order (the
task-line list has the program's length and its `k`-th line is the
line of the `k`-th task), and the file name each sbatch line
references, `dir/<node_task_filename task>`, is exactly the file name
under which `generate_task_files` wrote that task's file — both
computed by `node_task_filename` on the same node. -/
theorem c10_submission_script (prog nodes : List Node) (dir : String)
    (execPathOf : Node → String) (before after : Node → List String)
    (hnodup : (prog.map Node.identifier).Nodup)
    (htopo : ∀ i (hi : i < prog.length), ∀ d ∈ (prog.get ⟨i, hi⟩).dependencies,
      ∃ j, ∃ hj : j < prog.length, j < i ∧ (prog.get ⟨j, hj⟩).identifier = d)
    (hsub : ∀ t ∈ prog, t ∈ nodes) :
    ∃ ts, generate_submission_script prog dir =
        some (["#!/usr/bin/env bash", "mkdir -p " ++ dir ++ "/logs"] ++ ts,
          jobIdentifiers prog.length dir) ∧
      ts.length = prog.length ∧
      ∀ k, k < ts.length → ∃ task p, prog[k]? = some task ∧
        ts[k]? = some (p ++ (dir ++ "/" ++ node_task_filename task ++ ")")) ∧
        (dir ++ "/" ++ node_task_filename task) ∈
          (generate_task_files nodes dir execPathOf before after).map Prod.fst := by
  obtain ⟨ls, hls, hlen, hidx⟩ := genTaskLinesAux_some dir prog hnodup htopo
    prog.length 0 (by omega) (by omega)
  rw [List.drop_zero] at hls
  rw [show tasksDictUpto prog 0 = [] from rfl] at hls
  refine ⟨ls, ?_, by omega, ?_⟩
  · rw [generate_submission_script, hls]
    rfl
  · intro k hk
    obtain ⟨task, p, htask, hline⟩ := hidx k hk
    rw [Nat.zero_add] at htask
    refine ⟨task, p, htask, hline, ?_⟩
    rw [generate_task_files_names]
    exact List.mem_map_of_mem _ (hsub task (List.getElem?_mem htask))

/-- Witness for C10 on the two-node program `[A, B]` where `B`
depends on `A`. -/
theorem c10_submission_script_witness :
    ∃ ts, generate_submission_script [⟨0, "a", 1, [], []⟩, ⟨1, "b", 1, [], [0]⟩] "/w" =
        some (["#!/usr/bin/env bash", "mkdir -p " ++ "/w" ++ "/logs"] ++ ts,
          jobIdentifiers 2 "/w") ∧
      ts.length = 2 ∧
      ∀ k, k < ts.length → ∃ task p,
        ([⟨0, "a", 1, [], []⟩, ⟨1, "b", 1, [], [0]⟩] : List Node)[k]? = some task ∧
        ts[k]? = some (p ++ ("/w" ++ "/" ++ node_task_filename task ++ ")")) ∧
        ("/w" ++ "/" ++ node_task_filename task) ∈
          (generate_task_files [⟨0, "a", 1, [], []⟩, ⟨1, "b", 1, [], [0]⟩] "/w"
            (fun _ => "/x") (fun _ => []) (fun _ => [])).map Prod.fst := by
  refine c10_submission_script _ _ "/w" (fun _ => "/x") (fun _ => []) (fun _ => [])
    (by decide) ?_ (fun t ht => ht)
  intro i hi d hd
  have h2 : i = 0 ∨ i = 1 := by
    have hlt : i < 2 := by simpa using hi
    omega
  rcases h2 with rfl | rfl
  · simp at hd
  · simp at hd
    subst hd
    exact ⟨0, by decide, by decide, rfl⟩

/-- C6: in the task file written for a node, the
`#SBATCH --array 0-(tasks-1)` directive is present, and the processor
command carries the ` $SLURM_ARRAY_TASK_ID` suffix, exactly when
`node.tasks > 1`; a node with `tasks = 1` gets the bare processor
command and neither array marker.  The hypotheses rule out unrelated
lines masquerading as these: no user attribute spells out an
`--array` directive, and plugin-contributed command lines start with
neither `#` nor `p`. -/
theorem c6_array_task_file (n : Node) (execPath : String)
    (before after : List String)
    (hplug : ∀ l ∈ before ++ after,
      l.data.head? ≠ some '#' ∧ l.data.head? ≠ some 'p')
    (hattr : ∀ kv ∈ n.attributes, strHasPre "--array" (kv.1 ++ kv.2) = false) :
    (("#SBATCH --array 0-" ++ toString (n.tasks - 1)) ∈
        taskFileLines n execPath before after ↔ n.tasks > 1) ∧
    (("python -u -m awflow.bin.processor " ++ execPath ++ " $SLURM_ARRAY_TASK_ID") ∈
        taskFileLines n execPath before after ↔ n.tasks > 1) ∧
    (n.tasks = 1 →
      ("python -u -m awflow.bin.processor " ++ execPath) ∈
        taskFileLines n execPath before after) := by
  have hcmdhead : ∀ t : String,
      (("python -u -m awflow.bin.processor " ++ execPath) ++ t).data.head? = some 'p' :=
    fun t => head?_strAppend _ _ _ (head?_strAppend _ _ _ (by decide))
  have hcmdhead0 : ("python -u -m awflow.bin.processor " ++ execPath).data.head? = some 'p' :=
    head?_strAppend _ _ _ (by decide)
  have harrayhead : ∀ ts : String, ("#SBATCH --array 0-" ++ ts).data.head? = some '#' :=
    fun ts => head?_strAppend _ _ _ (by decide)
  have hattrline : ∀ ts : String,
      ("#SBATCH --array 0-" ++ ts) ∉ sbatchAttrLines n.attributes := by
    intro ts hl
    obtain ⟨⟨k, v⟩, hkv, _, heq⟩ := mem_sbatchAttrLines hl
    have hd := congrArg String.data heq
    rw [String.data_append, String.data_append, String.data_append] at hd
    have hsplit : ("#SBATCH --array 0-".data : List Char) =
        "#SBATCH ".data ++ "--array 0-".data := by decide
    rw [hsplit, List.append_assoc, List.append_assoc] at hd
    have hcancel := List.append_cancel_left hd
    have hpre : strHasPre "--array" (k ++ v) = true := by
      simp only [strHasPre, List.isPrefixOf_iff_prefix, String.data_append]
      refine ⟨" 0-".data ++ ts.data, ?_⟩
      rw [← hcancel]
      have h7 : ("--array 0-".data : List Char) = "--array".data ++ " 0-".data := by decide
      rw [h7]
      simp [List.append_assoc]
    rw [hattr (k, v) hkv] at hpre
    exact Bool.false_ne_true hpre
  refine ⟨⟨?_, ?_⟩, ⟨?_, ?_⟩, ?_⟩
  · intro hmem
    by_cases ht : n.tasks > 1
    · exact ht
    · exfalso
      unfold taskFileLines at hmem
      rw [if_neg ht, if_neg ht] at hmem
      simp only [List.append_nil, List.mem_append, List.mem_cons, List.mem_singleton,
        List.not_mem_nil, or_false, false_or] at hmem
      rcases hmem with (((h | h) | h) | h) | h
      · exact strLit_ne_append "#!/usr/bin/env bash" "#SBATCH --array 0-" _ 18
          (by decide) (by decide) h.symm
      · exact hattrline _ h
      · exact (hplug _ (List.mem_append_left _ h)).1 (harrayhead _)
      · exact str_head_clash (harrayhead _) (hcmdhead "") (by decide) h
      · exact (hplug _ (List.mem_append_right _ h)).1 (harrayhead _)
  · intro ht
    simp [taskFileLines, ht]
  · intro hmem
    by_cases ht : n.tasks > 1
    · exact ht
    · exfalso
      unfold taskFileLines at hmem
      rw [if_neg ht, if_neg ht] at hmem
      simp only [List.append_nil, List.mem_append, List.mem_cons, List.mem_singleton,
        List.not_mem_nil, or_false, false_or] at hmem
      rcases hmem with (((h | h) | h) | h) | h
      · exact str_head_clash (hcmdhead _)
          (by decide : ("#!/usr/bin/env bash").data.head? = some '#') (by decide) h
      · have hh := sbatchAttrLines_head _ _ h
        rw [hcmdhead _] at hh
        exact absurd hh (by decide)
      · exact (hplug _ (List.mem_append_left _ h)).2 (hcmdhead _)
      · have hd := congrArg String.data h
        simp only [String.data_append] at hd
        have h2 := List.append_cancel_left hd
        exact absurd h2 (by decide)
      · exact (hplug _ (List.mem_append_right _ h)).2 (hcmdhead _)
  · intro ht
    simp [taskFileLines, ht]
  · intro h1
    have ht : ¬ n.tasks > 1 := by omega
    simp [taskFileLines, ht]

/-- Witness for C6 at a concrete array-task node with an ordinary
attribute and plugin command lines. -/
theorem c6_array_task_file_witness :
    let n : Node := ⟨4, "simulate", 3, [("--gres=", "gpu:1")], []⟩
    ("#SBATCH --array 0-2") ∈
      taskFileLines n "/w/exec" ["module load conda"] ["echo done"] := by
  intro n
  have h := c6_array_task_file n "/w/exec" ["module load conda"] ["echo done"]
    (by intro l hl; fin_cases hl <;> exact ⟨by decide, by decide⟩)
    (by intro kv hkv; fin_cases hkv; decide)
  have h3 : ("#SBATCH --array 0-" ++ toString (n.tasks - 1)) ∈
      taskFileLines n "/w/exec" ["module load conda"] ["echo done"] :=
    h.1.mpr (by decide)
  simpa using h3

/-- C3: when pruning leaves no surviving nodes, `execute` terminates
successfully (the modelled run is a total function that reaches the
end of the body) and skips the submission step entirely — no
executables, no metadata, no task files, no submission script are
generated and `submit` is never invoked — and the generated working
directory is removed. -/
theorem c3_empty_after_pruning (nodes : List Node) (post : Nat → Bool) (rc : Int)
    (dir tmpdir : String)
    (h : pruneNodes nodes (postSnapshot nodes post) = []) :
    Event.removeTree tmpdir ∈ executeTrace nodes post rc dir tmpdir ∧
    (∀ d, Event.generateExecutables d ∉ executeTrace nodes post rc dir tmpdir) ∧
    (∀ d, Event.generateMetadata d ∉ executeTrace nodes post rc dir tmpdir) ∧
    (∀ d, Event.generateTaskFilesCall d ∉ executeTrace nodes post rc dir tmpdir) ∧
    (∀ d, Event.generateSubmissionScriptCall d ∉ executeTrace nodes post rc dir tmpdir) ∧
    (∀ d, Event.submitCall d ∉ executeTrace nodes post rc dir tmpdir) := by
  have ht : executeTrace nodes post rc dir tmpdir =
      [Event.makeBaseDir dir, Event.makeTempDir tmpdir, Event.programCall,
       Event.applyDefaults, Event.generatePostconditions tmpdir, Event.pruneCall,
       Event.removeTree tmpdir] := by
    simp [executeTrace, h]
  rw [ht]
  refine ⟨by simp, ?_, ?_, ?_, ?_, ?_⟩ <;> intro d hd <;> simp at hd

/-- Witness for C3 on an empty workflow. -/
theorem c3_empty_after_pruning_witness :
    Event.removeTree "/t" ∈ executeTrace [] (fun _ => true) 0 "/d" "/t" ∧
    (∀ d, Event.submitCall d ∉ executeTrace [] (fun _ => true) 0 "/d" "/t") :=
  ⟨(c3_empty_after_pruning [] (fun _ => true) 0 "/d" "/t" rfl).1,
   (c3_empty_after_pruning [] (fun _ => true) 0 "/d" "/t" rfl).2.2.2.2.2⟩

/-- C4: in every run of `execute`, the postcondition snapshot is
generated exactly once, strictly before `workflow.prune()` is called
(positions 4 and 5 of the trace); pruning consumes the cached
snapshot — `pruneNodes` is a function of the snapshot, not of the
postcondition evaluator — so pruning never triggers postcondition
re-evaluation (the single generation event is the one before the
prune call). -/
theorem c4_postconditions_before_prune (nodes : List Node) (post : Nat → Bool)
    (rc : Int) (dir tmpdir : String) :
    ∃ i j : Nat, i < j ∧
      (executeTrace nodes post rc dir tmpdir)[i]? =
        some (Event.generatePostconditions tmpdir) ∧
      (executeTrace nodes post rc dir tmpdir)[j]? = some Event.pruneCall ∧
      (executeTrace nodes post rc dir tmpdir).count
        (Event.generatePostconditions tmpdir) = 1 := by
  refine ⟨4, 5, ?_, ?_, ?_, ?_⟩
  · omega
  · simp [executeTrace]
  · simp [executeTrace]
  by_cases hp : (pruneNodes nodes (postSnapshot nodes post)).length > 0
  · by_cases hrc : rc = 0 <;>
      simp [executeTrace, hp, submitRun, hrc, List.count_append, List.count_cons]
  · simp [executeTrace, hp, List.count_append, List.count_cons]

/-- C8: if `submit` raises (the scheduler invocation returns a
nonzero code), `execute` catches the exception, prints it, removes
the entire generated working directory, and returns normally — the
modelled `executeTrace` is total, so no exception propagates to the
caller of `execute`. -/
theorem c8_submit_failure_caught (nodes : List Node) (post : Nat → Bool)
    (rc : Int) (dir tmpdir : String) (hrc : rc ≠ 0)
    (hne : pruneNodes nodes (postSnapshot nodes post) ≠ []) :
    submitRun tmpdir rc = Except.error "Failed to submit pipeline." ∧
    Event.printError "Failed to submit pipeline." ∈
      executeTrace nodes post rc dir tmpdir ∧
    Event.removeTree tmpdir ∈ executeTrace nodes post rc dir tmpdir := by
  have hs : submitRun tmpdir rc = Except.error "Failed to submit pipeline." := by
    rw [submitRun, if_neg hrc]
  have hp : (pruneNodes nodes (postSnapshot nodes post)).length > 0 :=
    List.length_pos.mpr hne
  refine ⟨hs, ?_, ?_⟩ <;> simp [executeTrace, hp, hs]

/-- Witness for C8 on a one-node workflow with a failing submission. -/
theorem c8_submit_failure_caught_witness :
    Event.printError "Failed to submit pipeline." ∈
      executeTrace [⟨0, "a", 1, [], []⟩] (fun _ => false) 1 "/d" "/t" ∧
    Event.removeTree "/t" ∈
      executeTrace [⟨0, "a", 1, [], []⟩] (fun _ => false) 1 "/d" "/t" :=
  ⟨(c8_submit_failure_caught [⟨0, "a", 1, [], []⟩] (fun _ => false) 1 "/d" "/t"
      (by decide) (by decide)).2.1,
   (c8_submit_failure_caught [⟨0, "a", 1, [], []⟩] (fun _ => false) 1 "/d" "/t"
      (by decide) (by decide)).2.2⟩

/-- C9: `add_default_attributes` unconditionally assigns the five
default attributes on every node of the workflow — `--export=` ↦
`ALL`, `--parsable` ↦ empty, `--requeue` ↦ empty, `--job-name=` ↦ the
quoted node name, and `--output=` ↦ a quoted log path ending in
`-%A_%a.log` for array tasks (`tasks > 1`) and `-%j.log` otherwise.
Since `n` ranges over nodes with arbitrary prior attributes, any value
a user previously attached under one of these keys is overwritten. -/
theorem c9_add_default_attributes (dir : String) (nodes : List Node) (n : Node)
    (h : n ∈ nodes) :
    addDefaults dir n ∈ add_default_attributes dir nodes ∧
    attrGet (addDefaults dir n).attributes "--export=" = some "ALL" ∧
    attrGet (addDefaults dir n).attributes "--parsable" = some "" ∧
    attrGet (addDefaults dir n).attributes "--requeue" = some "" ∧
    attrGet (addDefaults dir n).attributes "--job-name=" =
      some ("\"" ++ n.name ++ "\"") ∧
    attrGet (addDefaults dir n).attributes "--output=" =
      some ("\"" ++ dir ++ "/logs/" ++ n.name ++
        (if n.tasks > 1 then "-%A_%a.log" else "-%j.log") ++ "\"") := by
  refine ⟨List.mem_map_of_mem _ h, ?_, ?_, ?_, ?_, ?_⟩ <;>
    simp [addDefaults, attrGet_attrSet_self, attrGet_attrSet_of_ne]

/-- Witness for C9 on a concrete node that had previously overridden
`--export=`. -/
theorem c9_add_default_attributes_witness :
    attrGet (addDefaults "/w"
      ⟨7, "fit", 1, [("--export=", "NONE"), ("conda", "env")], []⟩).attributes
      "--export=" = some "ALL" :=
  (c9_add_default_attributes "/w"
    [⟨7, "fit", 1, [("--export=", "NONE"), ("conda", "env")], []⟩]
    ⟨7, "fit", 1, [("--export=", "NONE"), ("conda", "env")], []⟩
    (List.mem_singleton_self _)).2.1

end Awflow
